import Mathlib

/-!
Verification of the MySQL initial-handshake packet decoder
(cmd/rajath_go_assessment/mysql_decode.go).

The Go program reads one 1024-byte buffer from the connection and decodes it
as a protocol-version-10 initial handshake packet.  We embed the buffer as a
list of byte values (Nat values below 256 in every real execution) and the
decoder as a pure function on that list.  Go runtime semantics are modelled
explicitly: indexing a slice past its length, or slicing past its capacity,
aborts the run (constructor Outcome.panic); slicing a slice past its length
but within its capacity succeeds and reads the underlying array.  The payload
slice data[4 : L+4] of the 1024-byte buffer has length L and capacity 1020.
The Decode method mutates its receiver field by field; we thread the record
state and return it together with the outcome and the final value of the
position cursor.
-/

set_option maxRecDepth 100000

namespace MySqlDecode

/-- Byte b0 of a little-endian 16-bit value plus 256 times byte b1. -/
def le16 (b0 b1 : Nat) : Nat := b0 + 256 * b1

/-- Little-endian 32-bit value from four bytes. -/
def le32 (b0 b1 b2 b3 : Nat) : Nat := b0 + 256 * b1 + 65536 * b2 + 16777216 * b3

/-- bytes.IndexByte: index of the first occurrence of b, none when absent. -/
def indexByte : List Nat → Nat → Option Nat
  | [], _ => none
  | a :: as, b => if a = b then some 0 else (indexByte as b).map (· + 1)

/-- true when the second list occurs at the head of the first. -/
def startsWith : List Nat → List Nat → Bool
  | _, [] => true
  | [], _ :: _ => false
  | a :: as, b :: bs => a == b && startsWith as bs

/-- strings.Contains: the needle occurs somewhere in the haystack. -/
def containsSeq : List Nat → List Nat → Bool
  | hay, needle =>
    startsWith hay needle ||
      match hay with
      | [] => false
      | _ :: t => containsSeq t needle

/-- The access-denied message tested for by the error classifier. -/
def deniedNeedle : List Nat :=
  (String.toList "is not allowed to connect to this MySQL server").map Char.toNat

/-- func Max(x, y int) int from mysql_decode.go. -/
def Max (x y : Int) : Int := if x > y then x else y

/-- Byte at payload offset i, that is at offset 4+i of the read buffer. -/
def pb (d : List Nat) (i : Nat) : Nat := d.getD (4 + i) 0

/-- Payload slice [a, b): bytes 4+a to 4+b of the underlying read buffer.
Callers guard the Go slice-expression bounds explicitly before using it. -/
def ps (d : List Nat) (a b : Nat) : List Nat := (d.drop (4 + a)).take (b - a)

/-- The 24-bit little-endian length from the first three header bytes. -/
def headerLength (d : List Nat) : Nat :=
  d.getD 0 0 + 256 * d.getD 1 0 + 65536 * d.getD 2 0

structure PacketHeader where
  Length : Nat
  SequenceId : Nat
  deriving Repr, DecidableEq

structure InitialHandshakePacket where
  ProtocolVersion : Nat
  ServerVersion : List Nat
  ConnectionId : Nat
  AuthPluginData : List Nat
  Filler : Nat
  CapabilitiesFlags : Nat
  CharacterSet : Nat
  StatusFlags : Nat
  AuthPluginDataLen : Nat
  AuthPluginName : List Nat
  header : PacketHeader
  deriving Repr, DecidableEq

/-- The zero value of the receiver struct, as allocated by the caller. -/
def emptyPacket : InitialHandshakePacket :=
  { ProtocolVersion := 0, ServerVersion := [], ConnectionId := 0,
    AuthPluginData := [], Filler := 0, CapabilitiesFlags := 0,
    CharacterSet := 0, StatusFlags := 0, AuthPluginDataLen := 0,
    AuthPluginName := [], header := { Length := 0, SequenceId := 0 } }

/-- Errors returned by Decode, one constructor per errors.New call site. -/
inductive DecodeErr where
  | headerSanity
  | accessDenied (msg : List Nat)
  | version9
  | unknownVersion
  | invalidFiller
  | wrongAuthPluginDataLen
  deriving Repr, DecidableEq

/-- Outcome of a decode attempt: normal return, error return, or a Go
runtime out-of-range abort. -/
inductive Outcome where
  | ok
  | err (e : DecodeErr)
  | panic
  deriving Repr, DecidableEq

-- Capability flag constants (1 << iota in the source).
def clientLongPassword : Nat := 1
def clientFoundRows : Nat := 2
def clientLongFlag : Nat := 4
def clientConnectWithDB : Nat := 8
def clientNoSchema : Nat := 16
def clientCompress : Nat := 32
def clientODBC : Nat := 64
def clientLocalFiles : Nat := 128
def clientIgnoreSpace : Nat := 256
def clientProtocol41 : Nat := 512
def clientInteractive : Nat := 1024
def clientSSL : Nat := 2048
def clientIgnoreSIGPIPE : Nat := 4096
def clientTransactions : Nat := 8192
def clientReserved : Nat := 16384
def clientSecureConn : Nat := 32768
def clientMultiStatements : Nat := 65536
def clientMultiResults : Nat := 131072
def clientPSMultiResults : Nat := 262144
def clientPluginAuth : Nat := 524288
def clientConnectAttrs : Nat := 1048576
def clientPluginAuthLenEncClientData : Nat := 2097152
def clientCanHandleExpiredPasswords : Nat := 4194304
def clientSessionTrack : Nat := 8388608
def clientDeprecateEOF : Nat := 16777216

/-- The flag-name lookup table (var flags in the source). -/
def flags (v : Nat) : Option String :=
  if v = clientLongPassword then some "clientLongPassword"
  else if v = clientFoundRows then some "clientFoundRows"
  else if v = clientLongFlag then some "clientLongFlag"
  else if v = clientConnectWithDB then some "clientConnectWithDB"
  else if v = clientNoSchema then some "clientNoSchema"
  else if v = clientCompress then some "clientCompress"
  else if v = clientODBC then some "clientODBC"
  else if v = clientLocalFiles then some "clientLocalFiles"
  else if v = clientIgnoreSpace then some "clientIgnoreSpace"
  else if v = clientProtocol41 then some "clientProtocol41"
  else if v = clientInteractive then some "clientInteractive"
  else if v = clientSSL then some "clientSSL"
  else if v = clientIgnoreSIGPIPE then some "clientIgnoreSIGPIPE"
  else if v = clientTransactions then some "clientTransactions"
  else if v = clientReserved then some "clientReserved"
  else if v = clientSecureConn then some "clientSecureConn"
  else if v = clientMultiStatements then some "clientMultiStatements"
  else if v = clientMultiResults then some "clientMultiResults"
  else if v = clientPSMultiResults then some "clientPSMultiResults"
  else if v = clientPluginAuth then some "clientPluginAuth"
  else if v = clientConnectAttrs then some "clientConnectAttrs"
  else if v = clientPluginAuthLenEncClientData then some "clientPluginAuthLenEncClientData"
  else if v = clientCanHandleExpiredPasswords then some "clientCanHandleExpiredPasswords"
  else if v = clientSessionTrack then some "clientSessionTrack"
  else if v = clientDeprecateEOF then some "clientDeprecateEOF"
  else none

/-- Lower-case digit character for a value below the base (fmt verbs x and b). -/
def digitChar (n : Nat) : Char :=
  if n < 10 then Char.ofNat (48 + n) else Char.ofNat (87 + n)

/-- Zero-padded base-b rendering with exactly k digits. -/
def padDigits (base : Nat) : Nat → Nat → List Char
  | 0, _ => []
  | k + 1, n => padDigits base k (n / base) ++ [digitChar (n % base)]

/-- One line of the String method: Sprintf with 0x%08x - %032b - %s. -/
def fmtFlagLine (i : Nat) (name : String) : String :=
  "0x" ++ String.mk (padDigits 16 8 i) ++ " - " ++
    String.mk (padDigits 2 32 i) ++ " - " ++ name

/-- The names slice built by the String method of CapabilityFlag: the loop
runs i over 1 << 0 .. 1 << 31 in ascending order and appends a line for every
value present in the flags table.  The receiver value r is never consulted. -/
def capabilityFlagLines (r : Nat) : List String :=
  (List.range 32).filterMap fun k =>
    (flags (2 ^ k)).map fun name => fmtFlagLine (2 ^ k) name

/-- func (r CapabilityFlag) String() string: the lines joined by newlines. -/
def capabilityFlagText (r : Nat) : String :=
  String.intercalate "\n" (capabilityFlagLines r)

/-- func (r CapabilityFlag) Has(flag CapabilityFlag) bool. -/
def Has (r flag : Nat) : Bool := r &&& flag != 0

/-- One past the index of the first NUL byte of the whole read buffer
(bytes.IndexByte returns -1 when absent, so termIndex is then 0). -/
def termIndexOf (d : List Nat) : Nat :=
  match indexByte d 0 with
  | some i => i + 1
  | none => 0

/-- The error-classifier branch of Decode, lines 70-86 of the source, taken
when the protocol version byte is not 10.  termIndex is one past the first
NUL of the whole read buffer, header bytes included; the slice expression
payload[termIndex:header.Length] aborts when termIndex exceeds the payload
length. -/
def classify (d : List Nat) (L : Nat) (r : InitialHandshakePacket) :
    Outcome × InitialHandshakePacket × Nat :=
  let termIndex := termIndexOf d
  if L < termIndex then (.panic, r, 0)
  else
    let s := ps d termIndex L
    if containsSeq s deniedNeedle then (.err (.accessDenied s), r, 0)
    else if r.ProtocolVersion = 9 then (.err .version9, r, 0)
    else (.err .unknownVersion, r, 0)

/-- The auth-plugin-name step, lines 168-178 of the source.  position points
just past the reserved bytes or the secure-connection part 2; the slice
expression payload[position:] aborts when position exceeds the payload
length L. -/
def decodeName (d : List Nat) (L : Nat) (r : InitialHandshakePacket)
    (position : Nat) : Outcome × InitialHandshakePacket × Nat :=
  if L < position then (.panic, r, position)
  else
    match indexByte (ps d position L) 0 with
    | some idx =>
        (.ok, { r with AuthPluginName := ps d position (position + idx) }, position)
    | none =>
        (.ok, { r with AuthPluginName := ps d position L }, position)

/-- Lines 153-166 of the source: skip 1 + 10 reserved bytes, then, when the
secure-connection capability is set, append max(13, authPluginDataLen - 8)
bytes to the auth plugin data.  That slice read is bounded by the capacity
of the payload slice (buffer length minus 4), not by the payload length. -/
def decodeTail (d : List Nat) (L : Nat) (r : InitialHandshakePacket)
    (position : Nat) : Outcome × InitialHandshakePacket × Nat :=
  if r.CapabilitiesFlags &&& clientSecureConn ≠ 0 then
    if d.length < 4 + (position + 11 + (Max 13 (Int.ofNat r.AuthPluginDataLen - 8)).toNat) then
      (.panic, r, position + 11)
    else
      decodeName d L
        { r with
          AuthPluginData := r.AuthPluginData ++
              ps d (position + 11)
                (position + 11 + (Max 13 (Int.ofNat r.AuthPluginDataLen - 8)).toNat) }
        (position + 11 + (Max 13 (Int.ofNat r.AuthPluginDataLen - 8)).toNat)
  else decodeName d L r (position + 11)

/-- Lines 142-147 and following of the source: when the plugin-auth bit of
the already-assembled capability value is set, read the auth-plugin-data
length byte (an index expression bounded by the payload length) and reject
zero; then fall through to the reserved skip. -/
def decodePluginLen (d : List Nat) (L index : Nat) (r : InitialHandshakePacket) :
    Outcome × InitialHandshakePacket × Nat :=
  if r.CapabilitiesFlags &&& clientPluginAuth ≠ 0 then
    if L ≤ index + 21 then (.panic, r, index + 21)
    else if pb d (index + 21) = 0 then
      (.err .wrongAuthPluginDataLen,
        { r with AuthPluginDataLen := pb d (index + 21) }, index + 21)
    else decodeTail d L { r with AuthPluginDataLen := pb d (index + 21) } (index + 21)
  else decodeTail d L r (index + 21)

/-- Lines 120-140 of the source: lower capability half, character set,
status flags, upper capability half, and the 32-bit combination.  The two
2-byte reads are slice expressions bounded by the payload capacity; the
character-set read is an index expression bounded by the payload length. -/
def decodeCaps (d : List Nat) (L index : Nat) (r : InitialHandshakePacket) :
    Outcome × InitialHandshakePacket × Nat :=
  if d.length < 4 + (index + 16) then (.panic, r, index + 14)
  else if L ≤ index + 16 then (.panic, r, index + 16)
  else if d.length < 4 + (index + 19) then
    (.panic, { r with CharacterSet := pb d (index + 16) }, index + 17)
  else if d.length < 4 + (index + 21) then
    (.panic,
      { r with
        CharacterSet := pb d (index + 16),
        StatusFlags := le16 (pb d (index + 17)) (pb d (index + 18)) },
      index + 19)
  else
    decodePluginLen d L index
      { r with
        CharacterSet := pb d (index + 16),
        StatusFlags := le16 (pb d (index + 17)) (pb d (index + 18)),
        CapabilitiesFlags := le16 (pb d (index + 14)) (pb d (index + 15)) |||
            (le16 (pb d (index + 19)) (pb d (index + 20))) <<< 16 }

/-- Lines 99-118 of the source: connection id, the 8-byte first part of the
auth plugin data, and the filler byte.  index is the payload offset of the
NUL terminating the server version. -/
def decodeFields (d : List Nat) (L index : Nat) (r0 : InitialHandshakePacket) :
    Outcome × InitialHandshakePacket × Nat :=
  if d.length < 4 + (index + 5) then (.panic, r0, index + 1)
  else if d.length < 4 + (index + 13) then
    (.panic,
      { r0 with
        ConnectionId := le32 (pb d (index + 1)) (pb d (index + 2)) (pb d (index + 3))
            (pb d (index + 4)) },
      index + 5)
  else if L ≤ index + 13 then
    (.panic,
      { r0 with
        ConnectionId := le32 (pb d (index + 1)) (pb d (index + 2)) (pb d (index + 3))
            (pb d (index + 4)),
        AuthPluginData := ps d (index + 5) (index + 13) },
      index + 13)
  else if pb d (index + 13) ≠ 0 then
    (.err .invalidFiller,
      { r0 with
        ConnectionId := le32 (pb d (index + 1)) (pb d (index + 2)) (pb d (index + 3))
            (pb d (index + 4)),
        AuthPluginData := ps d (index + 5) (index + 13),
        Filler := pb d (index + 13) },
      index + 13)
  else
    decodeCaps d L index
      { r0 with
        ConnectionId := le32 (pb d (index + 1)) (pb d (index + 2)) (pb d (index + 3))
            (pb d (index + 4)),
        AuthPluginData := ps d (index + 5) (index + 13),
        Filler := pb d (index + 13) }

/-- The payload walk of Decode, lines 63-180 of the source, on a buffer d
with declared payload length L.  The record state starts from the zero
receiver; header.Length and header.SequenceId, assigned at line 59 before
this walk and never touched by it, are attached by the caller DecodeAux. -/
def DecodeBody (d : List Nat) (L : Nat) : Outcome × InitialHandshakePacket × Nat :=
  if d.length < 4 + L then (.panic, emptyPacket, 0)
  else if L = 0 then (.panic, emptyPacket, 0)
  else if pb d 0 ≠ 10 then classify d L { emptyPacket with ProtocolVersion := pb d 0 }
  else
    match indexByte (ps d 0 L) 0 with
    | none => (.panic, { emptyPacket with ProtocolVersion := pb d 0 }, 1)
    | some index =>
        if index = 0 then (.panic, { emptyPacket with ProtocolVersion := pb d 0 }, 1)
        else
          decodeFields d L index
            { emptyPacket with
              ProtocolVersion := pb d 0, ServerVersion := ps d 1 index }

/-- Decode with the sequence id passed separately: byte 3 of the buffer is
used only to populate header.SequenceId, which the payload walk never reads
or writes; the header is therefore attached around DecodeBody. -/
def DecodeAux (d : List Nat) (seq : Nat) : Outcome × InitialHandshakePacket × Nat :=
  if 1024 ≤ headerLength d then (.err .headerSanity, emptyPacket, 0)
  else
    ((DecodeBody d (headerLength d)).1,
     { (DecodeBody d (headerLength d)).2.1 with
       header := { Length := headerLength d, SequenceId := seq } },
     (DecodeBody d (headerLength d)).2.2)

/-- func (r *InitialHandshakePacket) Decode: the whole decode attempt on one
read buffer.  Returns the outcome, the final state of the receiver record,
and the final value of the position cursor. -/
def Decode (d : List Nat) : Outcome × InitialHandshakePacket × Nat :=
  DecodeAux d (d.getD 3 0)

/-- A 1024-byte read buffer: the given prefix, zero-filled to the end, as
conn.Read leaves the unwritten tail of make([]byte, 1024). -/
def padInput (p : List Nat) : List Nat := p ++ List.replicate (1024 - p.length) 0

/-- A version-0 packet whose payload is a NUL byte followed exactly by the
access-denied sentence: the first NUL of the payload is payload[0], so the
text after it is the full sentence. -/
def inpC3 : List Nat := padInput ([47, 0, 0, 0, 0] ++ deniedNeedle)

/-- A version-9 packet with no NUL in its declared payload and no
access-denied text. -/
def inpC3w : List Nat := padInput [5, 0, 0, 1, 9, 1, 2, 3, 4]

/-- Declared length 30, version 10, secure-connection bit set: part 2 runs
13 bytes past position 34 and leaves the cursor at 47 > 30. -/
def inpC4 : List Nat := padInput
  ([30, 0, 0, 0] ++
   [10, 97, 0, 1, 0, 0, 0, 11, 12, 13, 14, 15, 16, 17, 18, 0, 0, 128, 255, 2, 0, 0, 0])

/-- Declared length 40, version 10, server version 8.0, connection id 25,
and a nonzero filler byte at payload offset 17. -/
def inpC5 : List Nat := padInput
  ([40, 0, 0, 0] ++
   [10, 56, 46, 48, 0, 25, 0, 0, 0, 1, 2, 3, 4, 5, 6, 7, 8, 255])

/-- A fully well-formed version-10 packet whose two capability halves are
both 0xFFFF, with auth-plugin-data length 21 and plugin name abc. -/
def inp6 : List Nat := padInput
  ([53, 0, 0, 0] ++
   [10, 56, 46, 48, 0] ++ [25, 0, 0, 0] ++ [1, 2, 3, 4, 5, 6, 7, 8] ++
   [0] ++ [255, 255] ++ [255] ++ [2, 0] ++ [255, 255] ++ [21] ++
   [0, 0, 0, 0, 0, 0, 0, 0, 0, 0] ++
   [1, 2, 3, 4, 5, 6, 7, 8, 9, 10, 11, 12, 13] ++ [97, 98, 99, 0])

/-- Well-formed version-10 packet with the secure-connection and plugin-auth
bits set and auth-plugin-data length 30, so part 2 is 22 bytes. -/
def inp7 : List Nat := padInput
  ([59, 0, 0, 0] ++
   [10, 118, 49, 0] ++ [7, 0, 0, 0] ++ [1, 2, 3, 4, 5, 6, 7, 8] ++
   [0] ++ [0, 128] ++ [33] ++ [2, 0] ++ [8, 0] ++ [30] ++
   [0, 0, 0, 0, 0, 0, 0, 0, 0, 0] ++
   [100, 101, 102, 103, 104, 105, 106, 107, 108, 109, 110,
    111, 112, 113, 114, 115, 116, 117, 118, 119, 120, 121] ++ [122, 0])

/-- Well-formed version-10 packet with neither optional bit set and no NUL
byte in the auth-plugin-name region, which runs to the end of the payload. -/
def inp8 : List Nat := padInput
  ([37, 0, 0, 0] ++
   [10, 97, 0] ++ [9, 0, 0, 0] ++ [1, 2, 3, 4, 5, 6, 7, 8] ++
   [0] ++ [1, 0] ++ [8] ++ [2, 0] ++ [0, 0] ++ [0] ++
   [0, 0, 0, 0, 0, 0, 0, 0, 0, 0] ++ [120, 121, 122])

/-- Well-formed version-10 packet with the secure-connection bit set and the
plugin-auth bit clear: part 2 is computed from a length field never read. -/
def inp9 : List Nat := padInput
  ([48, 0, 0, 0] ++
   [10, 97, 0] ++ [9, 9, 0, 0] ++ [5, 5, 5, 5, 5, 5, 5, 5] ++
   [0] ++ [0, 128] ++ [45] ++ [0, 0] ++ [0, 0] ++ [77] ++
   [0, 0, 0, 0, 0, 0, 0, 0, 0, 0] ++
   [0, 0, 0, 0, 0, 0, 0, 0, 0, 0, 0, 0, 0, 0])

/-- Same packet as inp8 except for the sequence id byte. -/
def inp10a : List Nat := padInput
  ([37, 0, 0, 0] ++
   [10, 97, 0] ++ [9, 0, 0, 0] ++ [1, 2, 3, 4, 5, 6, 7, 8] ++
   [0] ++ [1, 0] ++ [8] ++ [2, 0] ++ [0, 0] ++ [0] ++
   [0, 0, 0, 0, 0, 0, 0, 0, 0, 0] ++ [120, 121, 122])

/-- Same packet as inp10a except that the sequence id byte is 7. -/
def inp10b : List Nat := padInput
  ([37, 0, 0, 7] ++
   [10, 97, 0] ++ [9, 0, 0, 0] ++ [1, 2, 3, 4, 5, 6, 7, 8] ++
   [0] ++ [1, 0] ++ [8] ++ [2, 0] ++ [0, 0] ++ [0] ++
   [0, 0, 0, 0, 0, 0, 0, 0, 0, 0] ++ [120, 121, 122])

/-!  Stage lemmas characterising the successful exits of the decoder.  -/

/-- The auth-plugin-name step succeeds exactly when the cursor is within the
payload; it changes only the AuthPluginName field, to the bytes before the
first NUL of the remaining payload, or to all remaining bytes. -/
theorem decodeName_ok {d : List Nat} {L : Nat} {r rec : InitialHandshakePacket}
    {p pos : Nat} (h : decodeName d L r p = (.ok, rec, pos)) :
    pos = p ∧ p ≤ L ∧ rec = { r with AuthPluginName := rec.AuthPluginName } ∧
      (match indexByte (ps d p L) 0 with
       | some j => rec.AuthPluginName = ps d p (p + j)
       | none => rec.AuthPluginName = ps d p L) := by
  unfold decodeName at h
  split at h
  · simp at h
  · rename_i hpL
    rcases hib : indexByte (ps d p L) 0 with _ | j
    · rw [hib] at h
      simp only [Prod.mk.injEq] at h
      obtain ⟨-, hrec, hpos⟩ := h
      subst hrec
      exact ⟨hpos.symm, Nat.le_of_not_lt hpL, rfl, rfl⟩
    · rw [hib] at h
      simp only [Prod.mk.injEq] at h
      obtain ⟨-, hrec, hpos⟩ := h
      subst hrec
      exact ⟨hpos.symm, Nat.le_of_not_lt hpL, rfl, rfl⟩

/-- The reserved-skip and secure-connection step: on success the cursor ends
11 bytes further, plus the part-2 width when the secure-connection bit is
set, and only AuthPluginData and AuthPluginName change. -/
theorem decodeTail_ok {d : List Nat} {L : Nat} {r rec : InitialHandshakePacket}
    {position pos : Nat} (h : decodeTail d L r position = (.ok, rec, pos)) :
    ∃ q, pos = q ∧ q ≤ L ∧
      ((r.CapabilitiesFlags &&& clientSecureConn = 0 ∧ q = position + 11 ∧
          rec = { r with AuthPluginName := rec.AuthPluginName }) ∨
       (r.CapabilitiesFlags &&& clientSecureConn ≠ 0 ∧
          q = position + 11 + (Max 13 (Int.ofNat r.AuthPluginDataLen - 8)).toNat ∧
          4 + q ≤ d.length ∧
          rec = { r with
            AuthPluginData := r.AuthPluginData ++ ps d (position + 11) q,
            AuthPluginName := rec.AuthPluginName })) ∧
      (match indexByte (ps d q L) 0 with
       | some j => rec.AuthPluginName = ps d q (q + j)
       | none => rec.AuthPluginName = ps d q L) := by
  unfold decodeTail at h
  split at h
  · rename_i hsec
    split at h
    · simp at h
    · rename_i hcap
      obtain ⟨hpos, hle, hrec, hmatch⟩ := decodeName_ok h
      refine ⟨position + 11 + (Max 13 (Int.ofNat r.AuthPluginDataLen - 8)).toNat,
        hpos, hle, Or.inr ⟨hsec, rfl, Nat.le_of_not_lt hcap, ?_⟩, hmatch⟩
      rw [hrec]
  · rename_i hsec
    obtain ⟨hpos, hle, hrec, hmatch⟩ := decodeName_ok h
    exact ⟨position + 11, hpos, hle,
      Or.inl ⟨Decidable.not_not.mp hsec, rfl, hrec⟩, hmatch⟩

/-- The plugin-auth length step: on success the length field was read (and
is nonzero) exactly when the plugin-auth bit is set, and the rest is the
reserved-skip and secure-connection behaviour. -/
theorem decodePluginLen_ok {d : List Nat} {L index : Nat}
    {r rec : InitialHandshakePacket} {pos : Nat}
    (h : decodePluginLen d L index r = (.ok, rec, pos)) :
    ∃ q, pos = q ∧ q ≤ L ∧
      rec.header = r.header ∧ rec.ProtocolVersion = r.ProtocolVersion ∧
      rec.ServerVersion = r.ServerVersion ∧ rec.ConnectionId = r.ConnectionId ∧
      rec.Filler = r.Filler ∧ rec.CharacterSet = r.CharacterSet ∧
      rec.StatusFlags = r.StatusFlags ∧
      rec.CapabilitiesFlags = r.CapabilitiesFlags ∧
      rec.AuthPluginDataLen =
        (if r.CapabilitiesFlags &&& clientPluginAuth ≠ 0 then pb d (index + 21)
         else r.AuthPluginDataLen) ∧
      (r.CapabilitiesFlags &&& clientPluginAuth ≠ 0 → pb d (index + 21) ≠ 0) ∧
      ((r.CapabilitiesFlags &&& clientSecureConn = 0 ∧ q = index + 32 ∧
          rec.AuthPluginData = r.AuthPluginData) ∨
       (r.CapabilitiesFlags &&& clientSecureConn ≠ 0 ∧
          q = index + 32 + (Max 13 (Int.ofNat rec.AuthPluginDataLen - 8)).toNat ∧
          4 + q ≤ d.length ∧
          rec.AuthPluginData = r.AuthPluginData ++ ps d (index + 32) q)) ∧
      (match indexByte (ps d q L) 0 with
       | some j => rec.AuthPluginName = ps d q (q + j)
       | none => rec.AuthPluginName = ps d q L) := by
  unfold decodePluginLen at h
  split at h
  · rename_i hpa
    split at h
    · simp at h
    rename_i hL21
    split at h
    · simp at h
    rename_i hal
    obtain ⟨q, hpos, hqL, hdisj, hmatch⟩ := decodeTail_ok h
    obtain ⟨n, hn⟩ : ∃ n, rec.AuthPluginName = n := ⟨_, rfl⟩
    rcases hdisj with ⟨hsec, hq, hrec⟩ | ⟨hsec, hq, hcapq, hrec⟩
    · rw [hn] at hrec
      subst hrec
      exact ⟨q, hpos, hqL, rfl, rfl, rfl, rfl, rfl, rfl, rfl, rfl, by simp [hpa],
        fun _ => hal, Or.inl ⟨hsec, hq, rfl⟩, hmatch⟩
    · rw [hn] at hrec
      subst hrec
      exact ⟨q, hpos, hqL, rfl, rfl, rfl, rfl, rfl, rfl, rfl, rfl, by simp [hpa],
        fun _ => hal, Or.inr ⟨hsec, hq, hcapq, rfl⟩, hmatch⟩
  · rename_i hpa
    obtain ⟨q, hpos, hqL, hdisj, hmatch⟩ := decodeTail_ok h
    obtain ⟨n, hn⟩ : ∃ n, rec.AuthPluginName = n := ⟨_, rfl⟩
    rcases hdisj with ⟨hsec, hq, hrec⟩ | ⟨hsec, hq, hcapq, hrec⟩
    · rw [hn] at hrec
      subst hrec
      exact ⟨q, hpos, hqL, rfl, rfl, rfl, rfl, rfl, rfl, rfl, rfl, by simp [hpa],
        fun hc => absurd hc hpa, Or.inl ⟨hsec, hq, rfl⟩, hmatch⟩
    · rw [hn] at hrec
      subst hrec
      exact ⟨q, hpos, hqL, rfl, rfl, rfl, rfl, rfl, rfl, rfl, rfl, by simp [hpa],
        fun hc => absurd hc hpa, Or.inr ⟨hsec, hq, hcapq, rfl⟩, hmatch⟩

/-- The capability-half step: on success the capability value of the record
is the 32-bit combination of the two 16-bit halves read at payload offsets
index+14 and index+19. -/
theorem decodeCaps_ok {d : List Nat} {L index : Nat}
    {r rec : InitialHandshakePacket} {pos : Nat}
    (h : decodeCaps d L index r = (.ok, rec, pos)) :
    ∃ q, pos = q ∧ q ≤ L ∧ index + 16 < L ∧ 4 + (index + 21) ≤ d.length ∧
      rec.header = r.header ∧ rec.ProtocolVersion = r.ProtocolVersion ∧
      rec.ServerVersion = r.ServerVersion ∧ rec.ConnectionId = r.ConnectionId ∧
      rec.Filler = r.Filler ∧
      rec.CharacterSet = pb d (index + 16) ∧
      rec.StatusFlags = le16 (pb d (index + 17)) (pb d (index + 18)) ∧
      rec.CapabilitiesFlags = (le16 (pb d (index + 14)) (pb d (index + 15)) |||
        (le16 (pb d (index + 19)) (pb d (index + 20))) <<< 16) ∧
      rec.AuthPluginDataLen =
        (if rec.CapabilitiesFlags &&& clientPluginAuth ≠ 0 then pb d (index + 21)
         else r.AuthPluginDataLen) ∧
      (rec.CapabilitiesFlags &&& clientPluginAuth ≠ 0 → pb d (index + 21) ≠ 0) ∧
      ((rec.CapabilitiesFlags &&& clientSecureConn = 0 ∧ q = index + 32 ∧
          rec.AuthPluginData = r.AuthPluginData) ∨
       (rec.CapabilitiesFlags &&& clientSecureConn ≠ 0 ∧
          q = index + 32 + (Max 13 (Int.ofNat rec.AuthPluginDataLen - 8)).toNat ∧
          4 + q ≤ d.length ∧
          rec.AuthPluginData = r.AuthPluginData ++ ps d (index + 32) q)) ∧
      (match indexByte (ps d q L) 0 with
       | some j => rec.AuthPluginName = ps d q (q + j)
       | none => rec.AuthPluginName = ps d q L) := by
  unfold decodeCaps at h
  split at h
  · simp at h
  rename_i h16
  split at h
  · simp at h
  rename_i hL16
  split at h
  · simp at h
  rename_i h19
  split at h
  · simp at h
  rename_i h21
  obtain ⟨q, hpos, hqL, hhdr, hpv, hsv, hcid, hfil, hcs, hsf, hcap, hlen, hlnz, hdisj, hmatch⟩ :=
    decodePluginLen_ok h
  refine ⟨q, hpos, hqL, by omega, Nat.le_of_not_lt h21, hhdr, hpv, hsv, hcid, hfil,
    hcs, hsf, hcap, ?_, ?_, ?_, hmatch⟩
  · rw [hcap]
    exact hlen
  · rw [hcap]
    exact hlnz
  · rw [hcap]
    exact hdisj

/-- The fixed-width middle of the decoder: on success every field after the
server version is determined by the bytes of the buffer at offsets fixed
relative to the server-version terminator index. -/
theorem decodeFields_ok {d : List Nat} {L index : Nat}
    {r0 rec : InitialHandshakePacket} {pos : Nat}
    (h : decodeFields d L index r0 = (.ok, rec, pos)) :
    ∃ q,
      index + 16 < L ∧ 4 + (index + 21) ≤ d.length ∧
      pb d (index + 13) = 0 ∧
      rec.header = r0.header ∧
      rec.ProtocolVersion = r0.ProtocolVersion ∧
      rec.ServerVersion = r0.ServerVersion ∧
      rec.ConnectionId =
        le32 (pb d (index + 1)) (pb d (index + 2)) (pb d (index + 3)) (pb d (index + 4)) ∧
      rec.Filler = 0 ∧
      rec.CharacterSet = pb d (index + 16) ∧
      rec.StatusFlags = le16 (pb d (index + 17)) (pb d (index + 18)) ∧
      rec.CapabilitiesFlags =
        (le16 (pb d (index + 14)) (pb d (index + 15)) |||
          (le16 (pb d (index + 19)) (pb d (index + 20))) <<< 16) ∧
      rec.AuthPluginDataLen =
        (if rec.CapabilitiesFlags &&& clientPluginAuth ≠ 0 then pb d (index + 21)
         else r0.AuthPluginDataLen) ∧
      (rec.CapabilitiesFlags &&& clientPluginAuth ≠ 0 → pb d (index + 21) ≠ 0) ∧
      ((rec.CapabilitiesFlags &&& clientSecureConn = 0 ∧ q = index + 32 ∧
          rec.AuthPluginData = ps d (index + 5) (index + 13)) ∨
       (rec.CapabilitiesFlags &&& clientSecureConn ≠ 0 ∧
          q = index + 32 + (Max 13 (Int.ofNat rec.AuthPluginDataLen - 8)).toNat ∧
          4 + q ≤ d.length ∧
          rec.AuthPluginData = ps d (index + 5) (index + 13) ++ ps d (index + 32) q)) ∧
      q ≤ L ∧ pos = q ∧
      (match indexByte (ps d q L) 0 with
       | some j => rec.AuthPluginName = ps d q (q + j)
       | none => rec.AuthPluginName = ps d q L) := by
  unfold decodeFields at h
  split at h
  · simp at h
  rename_i h5
  split at h
  · simp at h
  rename_i h13
  split at h
  · simp at h
  rename_i hL13
  split at h
  · simp at h
  rename_i hfillne
  have hfill : pb d (index + 13) = 0 := not_not.mp hfillne
  obtain ⟨q, hpos, hqL, h16L, h21len, hhdr, hpv, hsv, hcid, hfil, hcs, hsf, hcap,
    hlen, hlnz, hdisj, hmatch⟩ := decodeCaps_ok h
  exact ⟨q, h16L, h21len, hfill, hhdr, hpv, hsv, hcid, hfil.trans hfill, hcs, hsf,
    hcap, hlen, hlnz, hdisj, hqL, hpos, hmatch⟩

/-- The error classifier never returns a normal (ok) outcome. -/
theorem classify_not_ok {d : List Nat} {L : Nat} {r rec : InitialHandshakePacket}
    {pos : Nat} (h : classify d L r = (.ok, rec, pos)) : False := by
  unfold classify at h
  simp only [] at h
  split at h
  · simp at h
  split at h
  · simp at h
  split at h
  · simp at h
  · simp at h

/-- Characterisation of a successful payload walk: every field of the
record is the value read from the buffer at an offset fixed relative to the
server-version terminator, and the final cursor is within the payload. -/
theorem DecodeBody_ok {d : List Nat} {L : Nat} {rec : InitialHandshakePacket}
    {pos : Nat} (h : DecodeBody d L = (.ok, rec, pos)) :
    ∃ index q,
      4 + L ≤ d.length ∧ 1 ≤ L ∧
      pb d 0 = 10 ∧
      indexByte (ps d 0 L) 0 = some index ∧ 1 ≤ index ∧
      rec.ProtocolVersion = 10 ∧
      rec.ServerVersion = ps d 1 index ∧
      rec.ConnectionId =
        le32 (pb d (index + 1)) (pb d (index + 2)) (pb d (index + 3)) (pb d (index + 4)) ∧
      rec.Filler = 0 ∧ pb d (index + 13) = 0 ∧
      rec.CharacterSet = pb d (index + 16) ∧
      rec.StatusFlags = le16 (pb d (index + 17)) (pb d (index + 18)) ∧
      rec.CapabilitiesFlags = (le16 (pb d (index + 14)) (pb d (index + 15)) |||
        (le16 (pb d (index + 19)) (pb d (index + 20))) <<< 16) ∧
      rec.AuthPluginDataLen =
        (if rec.CapabilitiesFlags &&& clientPluginAuth ≠ 0 then pb d (index + 21) else 0) ∧
      (rec.CapabilitiesFlags &&& clientPluginAuth ≠ 0 → pb d (index + 21) ≠ 0) ∧
      ((rec.CapabilitiesFlags &&& clientSecureConn = 0 ∧ q = index + 32 ∧
          rec.AuthPluginData = ps d (index + 5) (index + 13)) ∨
       (rec.CapabilitiesFlags &&& clientSecureConn ≠ 0 ∧
          q = index + 32 + (Max 13 (Int.ofNat rec.AuthPluginDataLen - 8)).toNat ∧
          4 + q ≤ d.length ∧
          rec.AuthPluginData = ps d (index + 5) (index + 13) ++ ps d (index + 32) q)) ∧
      q ≤ L ∧ pos = q ∧
      (match indexByte (ps d q L) 0 with
       | some j => rec.AuthPluginName = ps d q (q + j)
       | none => rec.AuthPluginName = ps d q L) := by
  unfold DecodeBody at h
  split at h
  · simp at h
  rename_i hcap4
  split at h
  · simp at h
  rename_i hL0
  split at h
  · exact absurd h (fun hc => classify_not_ok hc)
  rename_i hpv
  split at h
  · simp at h
  rename_i index hidx
  split at h
  · simp at h
  rename_i hi0
  obtain ⟨q, h16L, h21len, hfill, hhdr, hpvf, hsv, hcid, hfil, hcs, hsf, hcap,
    hlen, hlnz, hdisj, hqL, hpos, hmatch⟩ := decodeFields_ok h
  exact ⟨index, q, Nat.le_of_not_lt hcap4, by omega,
    not_not.mp hpv, hidx, by omega, hpvf.trans (not_not.mp hpv), hsv, hcid,
    hfil, hfill, hcs, hsf, hcap, hlen, hlnz, hdisj, hqL, hpos, hmatch⟩

/-- Master characterisation of a successful decode: every field of the
returned record is the value read from the buffer at an offset fixed
relative to the server-version terminator, and the final cursor is within
the declared payload. -/
theorem Decode_ok_shape {d : List Nat} {rec : InitialHandshakePacket} {pos : Nat}
    (h : Decode d = (.ok, rec, pos)) :
    ∃ index q,
      headerLength d < 1024 ∧ 4 + headerLength d ≤ d.length ∧ 1 ≤ headerLength d ∧
      pb d 0 = 10 ∧
      indexByte (ps d 0 (headerLength d)) 0 = some index ∧ 1 ≤ index ∧
      rec.header = { Length := headerLength d, SequenceId := d.getD 3 0 } ∧
      rec.ProtocolVersion = 10 ∧
      rec.ServerVersion = ps d 1 index ∧
      rec.ConnectionId =
        le32 (pb d (index + 1)) (pb d (index + 2)) (pb d (index + 3)) (pb d (index + 4)) ∧
      rec.Filler = 0 ∧ pb d (index + 13) = 0 ∧
      rec.CharacterSet = pb d (index + 16) ∧
      rec.StatusFlags = le16 (pb d (index + 17)) (pb d (index + 18)) ∧
      rec.CapabilitiesFlags = (le16 (pb d (index + 14)) (pb d (index + 15)) |||
        (le16 (pb d (index + 19)) (pb d (index + 20))) <<< 16) ∧
      rec.AuthPluginDataLen =
        (if rec.CapabilitiesFlags &&& clientPluginAuth ≠ 0 then pb d (index + 21) else 0) ∧
      (rec.CapabilitiesFlags &&& clientPluginAuth ≠ 0 → pb d (index + 21) ≠ 0) ∧
      ((rec.CapabilitiesFlags &&& clientSecureConn = 0 ∧ q = index + 32 ∧
          rec.AuthPluginData = ps d (index + 5) (index + 13)) ∨
       (rec.CapabilitiesFlags &&& clientSecureConn ≠ 0 ∧
          q = index + 32 + (Max 13 (Int.ofNat rec.AuthPluginDataLen - 8)).toNat ∧
          4 + q ≤ d.length ∧
          rec.AuthPluginData = ps d (index + 5) (index + 13) ++ ps d (index + 32) q)) ∧
      q ≤ headerLength d ∧ pos = q ∧
      (match indexByte (ps d q (headerLength d)) 0 with
       | some j => rec.AuthPluginName = ps d q (q + j)
       | none => rec.AuthPluginName = ps d q (headerLength d)) := by
  unfold Decode DecodeAux at h
  split at h
  · simp at h
  rename_i hsan
  rcases hB : DecodeBody d (headerLength d) with ⟨o, r, p⟩
  rw [hB] at h
  simp only [Prod.mk.injEq] at h
  obtain ⟨ho, hrec, hpos⟩ := h
  subst ho
  subst hpos
  obtain ⟨index, q, hcap4, hL1, hpv, hidx, hi1, hpvf, hsv, hcid, hfil, hfill, hcs,
    hsf, hcap, hlen, hlnz, hdisj, hqL, hpq, hmatch⟩ := DecodeBody_ok hB
  subst hrec
  exact ⟨index, q, by omega, hcap4, hL1, hpv, hidx, hi1, rfl, hpvf, hsv, hcid,
    hfil, hfill, hcs, hsf, hcap, hlen, hlnz, hdisj, hqL, hpq, hmatch⟩

/-- A found byte index is within the scanned list. -/
theorem indexByte_some_lt {l : List Nat} {b j : Nat} (h : indexByte l b = some j) :
    j < l.length := by
  induction l generalizing j with
  | nil => simp [indexByte] at h
  | cons a as ih =>
      unfold indexByte at h
      split at h
      · simp only [Option.some.injEq] at h
        simp [← h]
      · cases hi : indexByte as b with
        | none => rw [hi] at h; simp at h
        | some k =>
            rw [hi] at h
            simp at h
            have := ih hi
            simp only [List.length_cons]
            omega

/-- A payload slice [a, b) holds at most b - a bytes. -/
theorem ps_length_le (d : List Nat) (a b : Nat) : (ps d a b).length ≤ b - a := by
  unfold ps
  simp only [List.length_take]
  exact min_le_left _ _

/-- The error classifier leaves the record untouched and the cursor at 0,
and produces only access-denied, version-9 or unknown-version errors, or a
slice abort. -/
theorem classify_cases {d : List Nat} {L : Nat} {r rec : InitialHandshakePacket}
    {o : Outcome} {pos : Nat} (h : classify d L r = (o, rec, pos)) :
    rec = r ∧ pos = 0 ∧
      (o = .panic ∨ (∃ s, o = .err (.accessDenied s)) ∨
        o = .err .version9 ∨ o = .err .unknownVersion) := by
  unfold classify at h
  simp only [] at h
  split at h
  · simp only [Prod.mk.injEq] at h
    exact ⟨h.2.1.symm, h.2.2.symm, Or.inl h.1.symm⟩
  split at h
  · simp only [Prod.mk.injEq] at h
    exact ⟨h.2.1.symm, h.2.2.symm, Or.inr (Or.inl ⟨_, h.1.symm⟩)⟩
  split at h
  · simp only [Prod.mk.injEq] at h
    exact ⟨h.2.1.symm, h.2.2.symm, Or.inr (Or.inr (Or.inl h.1.symm))⟩
  · simp only [Prod.mk.injEq] at h
    exact ⟨h.2.1.symm, h.2.2.symm, Or.inr (Or.inr (Or.inr h.1.symm))⟩

/-- The auth-plugin-name step never returns an error value. -/
theorem decodeName_no_err {d : List Nat} {L : Nat} {r rec : InitialHandshakePacket}
    {p pos : Nat} {e : DecodeErr} (h : decodeName d L r p = (.err e, rec, pos)) :
    False := by
  unfold decodeName at h
  split at h
  · simp at h
  split at h
  · simp at h
  · simp at h

/-- The reserved-skip and secure-connection step never returns an error. -/
theorem decodeTail_no_err {d : List Nat} {L : Nat} {r rec : InitialHandshakePacket}
    {p pos : Nat} {e : DecodeErr} (h : decodeTail d L r p = (.err e, rec, pos)) :
    False := by
  unfold decodeTail at h
  split at h
  · split at h
    · simp at h
    · exact decodeName_no_err h
  · exact decodeName_no_err h

/-- The only error the plugin-auth length step can produce is the zero
auth-plugin-data length. -/
theorem decodePluginLen_err {d : List Nat} {L index : Nat}
    {r rec : InitialHandshakePacket} {pos : Nat} {e : DecodeErr}
    (h : decodePluginLen d L index r = (.err e, rec, pos)) :
    e = .wrongAuthPluginDataLen := by
  unfold decodePluginLen at h
  split at h
  · split at h
    · simp at h
    split at h
    · simp only [Prod.mk.injEq] at h
      cases h.1
      rfl
    · exact absurd h decodeTail_no_err
  · exact absurd h decodeTail_no_err

/-- The only error the capability step can produce is the zero
auth-plugin-data length. -/
theorem decodeCaps_err {d : List Nat} {L index : Nat}
    {r rec : InitialHandshakePacket} {pos : Nat} {e : DecodeErr}
    (h : decodeCaps d L index r = (.err e, rec, pos)) :
    e = .wrongAuthPluginDataLen := by
  unfold decodeCaps at h
  split at h
  · simp at h
  split at h
  · simp at h
  split at h
  · simp at h
  split at h
  · simp at h
  · exact decodePluginLen_err h

/-- On any non-aborting exit of the name step, the cursor plus the stored
name never exceeds the payload length. -/
theorem decodeName_bound {d : List Nat} {L : Nat} {r rec : InitialHandshakePacket}
    {p pos : Nat} {o : Outcome} (h : decodeName d L r p = (o, rec, pos))
    (hnp : o ≠ .panic) : pos + rec.AuthPluginName.length ≤ L := by
  unfold decodeName at h
  split at h
  · simp only [Prod.mk.injEq] at h
    exact absurd h.1.symm hnp
  rename_i hpL
  split at h
  · rename_i j hj
    simp only [Prod.mk.injEq] at h
    obtain ⟨-, hrec, hpos⟩ := h
    subst hrec
    subst hpos
    have hjlt : j < (ps d p L).length := indexByte_some_lt hj
    have hlenle : (ps d p (p + j)).length ≤ p + j - p := ps_length_le d p (p + j)
    have hLp : (ps d p L).length ≤ L - p := ps_length_le d p L
    simp only []
    omega
  · rename_i hj
    simp only [Prod.mk.injEq] at h
    obtain ⟨-, hrec, hpos⟩ := h
    subst hrec
    subst hpos
    have hLp : (ps d p L).length ≤ L - p := ps_length_le d p L
    have hple : p ≤ L := Nat.le_of_not_lt hpL
    simp only []
    omega

/-- The cursor bound, after the reserved skip. -/
theorem decodeTail_bound {d : List Nat} {L : Nat} {r rec : InitialHandshakePacket}
    {p pos : Nat} {o : Outcome} (h : decodeTail d L r p = (o, rec, pos))
    (hnp : o ≠ .panic) : pos + rec.AuthPluginName.length ≤ L := by
  unfold decodeTail at h
  split at h
  · split at h
    · simp only [Prod.mk.injEq] at h
      exact absurd h.1.symm hnp
    · exact decodeName_bound h hnp
  · exact decodeName_bound h hnp

/-- The cursor bound, from the plugin-auth length step on, for a record
whose name field is still empty. -/
theorem decodePluginLen_bound {d : List Nat} {L index : Nat}
    {r rec : InitialHandshakePacket} {pos : Nat} {o : Outcome}
    (h : decodePluginLen d L index r = (o, rec, pos))
    (hrn : r.AuthPluginName = []) (hnp : o ≠ .panic) :
    pos + rec.AuthPluginName.length ≤ L := by
  unfold decodePluginLen at h
  split at h
  · split at h
    · simp only [Prod.mk.injEq] at h
      exact absurd h.1.symm hnp
    rename_i hL21
    split at h
    · simp only [Prod.mk.injEq] at h
      obtain ⟨-, hrec, hpos⟩ := h
      subst hrec
      subst hpos
      simp only []
      rw [hrn]
      simp
      omega
    · exact decodeTail_bound h hnp
  · exact decodeTail_bound h hnp

/-- The cursor bound, from the capability step on. -/
theorem decodeCaps_bound {d : List Nat} {L index : Nat}
    {r rec : InitialHandshakePacket} {pos : Nat} {o : Outcome}
    (h : decodeCaps d L index r = (o, rec, pos))
    (hrn : r.AuthPluginName = []) (hnp : o ≠ .panic) :
    pos + rec.AuthPluginName.length ≤ L := by
  unfold decodeCaps at h
  split at h
  · simp only [Prod.mk.injEq] at h
    exact absurd h.1.symm hnp
  split at h
  · simp only [Prod.mk.injEq] at h
    exact absurd h.1.symm hnp
  split at h
  · simp only [Prod.mk.injEq] at h
    exact absurd h.1.symm hnp
  split at h
  · simp only [Prod.mk.injEq] at h
    exact absurd h.1.symm hnp
  · exact decodePluginLen_bound h hrn hnp

/-- The cursor bound, from the connection-id step on. -/
theorem decodeFields_bound {d : List Nat} {L index : Nat}
    {r0 rec : InitialHandshakePacket} {pos : Nat} {o : Outcome}
    (h : decodeFields d L index r0 = (o, rec, pos))
    (hrn : r0.AuthPluginName = []) (hnp : o ≠ .panic) :
    pos + rec.AuthPluginName.length ≤ L := by
  unfold decodeFields at h
  split at h
  · simp only [Prod.mk.injEq] at h
    exact absurd h.1.symm hnp
  split at h
  · simp only [Prod.mk.injEq] at h
    exact absurd h.1.symm hnp
  split at h
  · simp only [Prod.mk.injEq] at h
    exact absurd h.1.symm hnp
  rename_i hL13
  split at h
  · simp only [Prod.mk.injEq] at h
    obtain ⟨-, hrec, hpos⟩ := h
    subst hrec
    subst hpos
    simp only []
    rw [hrn]
    simp
    omega
  · exact decodeCaps_bound h hrn hnp

/-- Evaluation of the classifier when the text slice is in bounds. -/
theorem classify_eval (d : List Nat) (L : Nat) (r : InitialHandshakePacket)
    (hterm : termIndexOf d ≤ L) :
    classify d L r =
      ((if containsSeq (ps d (termIndexOf d) L) deniedNeedle then
          Outcome.err (.accessDenied (ps d (termIndexOf d) L))
        else if r.ProtocolVersion = 9 then Outcome.err .version9
        else Outcome.err .unknownVersion), r, 0) := by
  unfold classify
  simp only []
  rw [if_neg (Nat.not_lt.mpr hterm)]
  split
  · rfl
  · split
    · rfl
    · rfl

/-- On any exit of the payload walk other than a slice abort, the final
cursor plus the stored plugin name stays within the declared payload. -/
theorem DecodeBody_return_bound {d : List Nat} {L : Nat} {o : Outcome}
    {rec : InitialHandshakePacket} {pos : Nat}
    (h : DecodeBody d L = (o, rec, pos)) (hnp : o ≠ .panic) :
    pos + rec.AuthPluginName.length ≤ L := by
  unfold DecodeBody at h
  split at h
  · simp only [Prod.mk.injEq] at h
    exact absurd h.1.symm hnp
  split at h
  · simp only [Prod.mk.injEq] at h
    exact absurd h.1.symm hnp
  split at h
  · obtain ⟨hrec, hpos, -⟩ := classify_cases h
    subst hrec
    subst hpos
    simp [emptyPacket]
  split at h
  · simp only [Prod.mk.injEq] at h
    exact absurd h.1.symm hnp
  rename_i index hidx
  split at h
  · simp only [Prod.mk.injEq] at h
    exact absurd h.1.symm hnp
  · exact decodeFields_bound h rfl hnp

/-- The invalid-filler exit of the payload walk: the record already carries
the protocol version, server version, connection id and the first part of
the auth plugin data. -/
theorem DecodeBody_invalidFiller {d : List Nat} {L : Nat}
    {rec : InitialHandshakePacket} {pos : Nat}
    (h : DecodeBody d L = (.err .invalidFiller, rec, pos)) :
    ∃ index,
      indexByte (ps d 0 L) 0 = some index ∧
      pb d 0 = 10 ∧
      rec.ProtocolVersion = 10 ∧
      rec.ServerVersion = ps d 1 index ∧
      rec.ConnectionId =
        le32 (pb d (index + 1)) (pb d (index + 2)) (pb d (index + 3)) (pb d (index + 4)) ∧
      rec.AuthPluginData = ps d (index + 5) (index + 13) ∧
      rec.Filler = pb d (index + 13) ∧ pb d (index + 13) ≠ 0 ∧
      pos = index + 13 ∧ index + 13 < L := by
  unfold DecodeBody at h
  split at h
  · simp at h
  split at h
  · simp at h
  split at h
  · obtain ⟨-, -, hcase⟩ := classify_cases h
    rcases hcase with hc | ⟨s, hc⟩ | hc | hc <;> simp at hc
  rename_i hpv
  split at h
  · simp at h
  rename_i index hidx
  split at h
  · simp at h
  rename_i hi0
  unfold decodeFields at h
  split at h
  · simp at h
  split at h
  · simp at h
  split at h
  · simp at h
  rename_i hL13
  split at h
  · rename_i hfne
    simp only [Prod.mk.injEq] at h
    obtain ⟨-, hrec, hpos⟩ := h
    subst hrec
    exact ⟨index, hidx, not_not.mp hpv, not_not.mp hpv, rfl, rfl, rfl, rfl, hfne,
      hpos.symm, by omega⟩
  · have := decodeCaps_err h
    simp at this

/-- Two buffers with identical payload slices drive the name step
identically. -/
theorem decodeName_congr {d1 d2 : List Nat}
    (hps : ∀ a b, ps d1 a b = ps d2 a b) :
    ∀ L r p, decodeName d1 L r p = decodeName d2 L r p := by
  intro L r p
  unfold decodeName
  simp only [hps]

/-- Two buffers of equal length with identical payload slices drive the
secure-connection step identically. -/
theorem decodeTail_congr {d1 d2 : List Nat} (hlen : d1.length = d2.length)
    (hps : ∀ a b, ps d1 a b = ps d2 a b) :
    ∀ L r p, decodeTail d1 L r p = decodeTail d2 L r p := by
  intro L r p
  unfold decodeTail
  simp only [hlen, hps, decodeName_congr hps]

/-- Congruence for the plugin-auth length step. -/
theorem decodePluginLen_congr {d1 d2 : List Nat} (hlen : d1.length = d2.length)
    (hpb : ∀ i, pb d1 i = pb d2 i) (hps : ∀ a b, ps d1 a b = ps d2 a b) :
    ∀ L index r, decodePluginLen d1 L index r = decodePluginLen d2 L index r := by
  intro L index r
  unfold decodePluginLen
  simp only [hpb, decodeTail_congr hlen hps]

/-- Congruence for the capability step. -/
theorem decodeCaps_congr {d1 d2 : List Nat} (hlen : d1.length = d2.length)
    (hpb : ∀ i, pb d1 i = pb d2 i) (hps : ∀ a b, ps d1 a b = ps d2 a b) :
    ∀ L index r, decodeCaps d1 L index r = decodeCaps d2 L index r := by
  intro L index r
  unfold decodeCaps
  simp only [hlen, hpb, decodePluginLen_congr hlen hpb hps]

/-- Congruence for the fixed-width middle of the decoder. -/
theorem decodeFields_congr {d1 d2 : List Nat} (hlen : d1.length = d2.length)
    (hpb : ∀ i, pb d1 i = pb d2 i) (hps : ∀ a b, ps d1 a b = ps d2 a b) :
    ∀ L index r, decodeFields d1 L index r = decodeFields d2 L index r := by
  intro L index r
  unfold decodeFields
  simp only [hlen, hpb, hps, decodeCaps_congr hlen hpb hps]

/-- A decode result with the stored sequence id blanked out: everything the
decoder produced except header.SequenceId. -/
def eraseSeq (t : Outcome × InitialHandshakePacket × Nat) :
    Outcome × InitialHandshakePacket × Nat :=
  (t.1, { t.2.1 with header := { Length := t.2.1.header.Length, SequenceId := 0 } }, t.2.2)

/-- A payload slice [a, b) holds exactly b - a bytes when the buffer covers
it. -/
theorem ps_length_eq {d : List Nat} {a b : Nat} (hab : a ≤ b)
    (hb : 4 + b ≤ d.length) : (ps d a b).length = b - a := by
  unfold ps
  rw [List.length_take, List.length_drop]
  omega

/-!  The claims.  -/

/-- C1, counterexample: on the all-zero read buffer (declared payload length
0, so even the protocol-version byte is out of range) Decode ends in a Go
out-of-range abort; it does not return a ShortBuffer error - no such error
exists anywhere in the decoder. -/
theorem C1_no_shortbuffer_panic_counterexample :
    Decode (padInput []) = (Outcome.panic, emptyPacket, 0) := by
  rfl

/-- C1 (amended): decoding is not total.  The decoder validates no remaining
lengths: on every 1024-byte buffer whose declared payload length is 0, the
read of the protocol-version byte is out of range and the decode ends in a
runtime abort (modelled as Outcome.panic) instead of returning a ShortBuffer
error; no ShortBuffer error value exists in the code. -/
theorem C1_empty_payload_panics (d : List Nat) (h1 : d.length = 1024)
    (h0 : headerLength d = 0) : (Decode d).1 = Outcome.panic := by
  unfold Decode DecodeAux
  rw [h0]
  rw [if_neg (by omega)]
  simp only []
  unfold DecodeBody
  rw [if_neg (by omega)]
  rw [if_pos rfl]

/-- C1 witness: the all-zero buffer satisfies the hypotheses and panics. -/
theorem C1_empty_payload_panics_witness :
    (padInput []).length = 1024 ∧ headerLength (padInput []) = 0 ∧
      (Decode (padInput [])).1 = Outcome.panic :=
  ⟨rfl, rfl, C1_empty_payload_panics (padInput []) rfl rfl⟩

/-- C2, counterexample: the String method emits 25 lines for the value 0,
in which no bit is set (the claim predicts no lines), and its output for 0
is identical to its output for 0xFFFFFFFF - the loop never consults the
receiver value. -/
theorem C2_lines_for_unset_bits_counterexample :
    (capabilityFlagLines 0).length = 25 ∧
      capabilityFlagLines 0 = capabilityFlagLines 4294967295 :=
  ⟨by decide, rfl⟩

/-- C2 (amended): for every 32-bit capability value v, the String method
emits exactly one line per value of the 25-entry name table, in ascending
bit order, regardless of which bits of v are set: the output is independent
of v. -/
theorem C2_describe_ignores_value :
    ∀ v : Nat, capabilityFlagLines v = capabilityFlagLines 0 ∧
      (capabilityFlagLines v).length = 25 := by
  intro v
  refine ⟨rfl, ?_⟩
  show (capabilityFlagLines 0).length = 25
  decide

/-- C3, counterexample: a version-0 packet whose payload is a NUL byte
followed exactly by the access-denied sentence.  The first NUL after the
header sits at payload offset 0, and the text after it contains the
sentence, so the claim predicts AccessDenied; the code scans the whole
buffer (finding the NUL among the header length bytes), takes the text from
payload offset 2, misses the sentence, and returns the unknown-version
error instead. -/
theorem C3_buffer_wide_nul_scan_counterexample :
    (Decode inpC3).1 = Outcome.err DecodeErr.unknownVersion ∧
      indexByte (ps inpC3 0 (headerLength inpC3)) 0 = some 0 ∧
      containsSeq (ps inpC3 1 (headerLength inpC3)) deniedNeedle = true :=
  ⟨rfl, rfl, rfl⟩

/-- C3 (amended): for a non-version-10 packet the classifier locates the
first NUL byte of the entire read buffer (the four header bytes included -
because of the sanity check the third length byte is always zero, so that
NUL lies within the first three bytes), takes the payload from one past
that position up to the declared end, and returns AccessDenied with that
text iff it contains the sentence; otherwise UnsupportedProtocolVersion,
with the version-9 special case.  No structured fields beyond the version
byte are parsed and the record keeps only the header and version. -/
theorem C3_classifier_shape (d : List Nat) (h1024 : d.length = 1024)
    (hub : headerLength d ≤ 1020) (hlb : 1 ≤ headerLength d)
    (hpv : pb d 0 ≠ 10) (hterm : termIndexOf d ≤ headerLength d) :
    Decode d =
      ((if containsSeq (ps d (termIndexOf d) (headerLength d)) deniedNeedle then
          Outcome.err (.accessDenied (ps d (termIndexOf d) (headerLength d)))
        else if pb d 0 = 9 then Outcome.err .version9
        else Outcome.err .unknownVersion),
       { emptyPacket with
         ProtocolVersion := pb d 0,
         header := { Length := headerLength d, SequenceId := d.getD 3 0 } },
       0) := by
  have hbody : DecodeBody d (headerLength d) =
      ((if containsSeq (ps d (termIndexOf d) (headerLength d)) deniedNeedle then
          Outcome.err (.accessDenied (ps d (termIndexOf d) (headerLength d)))
        else if pb d 0 = 9 then Outcome.err .version9
        else Outcome.err .unknownVersion),
       { emptyPacket with ProtocolVersion := pb d 0 }, 0) := by
    unfold DecodeBody
    rw [if_neg (by omega), if_neg (by omega), if_pos hpv,
      classify_eval d (headerLength d) _ hterm]
  unfold Decode DecodeAux
  rw [if_neg (by omega), hbody]

/-- C3 witness: a version-9 packet with no NUL in its payload and no
access-denied text classifies as the version-9 error. -/
theorem C3_classifier_shape_witness :
    Decode inpC3w =
      ((if containsSeq (ps inpC3w (termIndexOf inpC3w) (headerLength inpC3w))
            deniedNeedle then
          Outcome.err (.accessDenied
            (ps inpC3w (termIndexOf inpC3w) (headerLength inpC3w)))
        else if pb inpC3w 0 = 9 then Outcome.err .version9
        else Outcome.err .unknownVersion),
       { emptyPacket with
         ProtocolVersion := pb inpC3w 0,
         header := { Length := headerLength inpC3w, SequenceId := inpC3w.getD 3 0 } },
       0) ∧
      (Decode inpC3w).1 = Outcome.err DecodeErr.version9 :=
  ⟨C3_classifier_shape inpC3w rfl (by decide) (by decide) (by decide) (by decide), rfl⟩

/-- C4, counterexample: a version-10 packet of declared payload length 30
with the secure-connection bit set.  The part-2 read advances the cursor to
47, consuming 17 bytes beyond the declared payload (from the zero-filled
buffer tail), before the name step aborts; the attempt consumed more than
header.length payload bytes. -/
theorem C4_cursor_overrun_counterexample :
    (Decode inpC4).1 = Outcome.panic ∧ (Decode inpC4).2.2 = 47 ∧
      headerLength inpC4 = 30 :=
  ⟨rfl, rfl, rfl⟩

/-- C4 (amended): on every decode attempt that returns to the caller (a
normal return or an error return, not a runtime abort), the final cursor
plus the bytes stored as the auth plugin name never exceeds header.length;
an attempt that aborts may first have consumed past the declared payload
(the secure-connection part 2 is bounded by the buffer capacity only). -/
theorem C4_return_cursor_bound (d : List Nat) (o : Outcome)
    (rec : InitialHandshakePacket) (pos : Nat)
    (h : Decode d = (o, rec, pos)) (hnp : o ≠ Outcome.panic) :
    pos + rec.AuthPluginName.length ≤ headerLength d := by
  unfold Decode DecodeAux at h
  split at h
  · simp only [Prod.mk.injEq] at h
    obtain ⟨ho, hrec, hpos⟩ := h
    subst hrec
    subst hpos
    simp [emptyPacket]
  · rcases hB : DecodeBody d (headerLength d) with ⟨o2, r, p⟩
    rw [hB] at h
    simp only [Prod.mk.injEq] at h
    obtain ⟨ho, hrec, hpos⟩ := h
    subst ho
    subst hpos
    subst hrec
    simpa using DecodeBody_return_bound hB hnp

/-- C4 witness: a successful decode satisfying the bound. -/
theorem C4_return_cursor_bound_witness :
    (Decode inp8).1 ≠ Outcome.panic ∧
      (Decode inp8).2.2 + (Decode inp8).2.1.AuthPluginName.length ≤
        headerLength inp8 :=
  ⟨by decide,
   C4_return_cursor_bound inp8 (Decode inp8).1 (Decode inp8).2.1 (Decode inp8).2.2
     rfl (by decide)⟩

/-- C5, counterexample: on a packet failing at the filler byte, the record
handed back to the caller already carries the server version 8.0 and
connection id 25 parsed before the failing step (the zero receiver would
carry 0 and an empty version): decoding mutates the caller-visible record
in place and is not all-or-nothing. -/
theorem C5_partial_record_counterexample :
    (Decode inpC5).1 = Outcome.err DecodeErr.invalidFiller ∧
      (Decode inpC5).2.1.ConnectionId = 25 ∧
      (Decode inpC5).2.1.ServerVersion = [56, 46, 48] ∧
      emptyPacket.ConnectionId = 0 ∧ emptyPacket.ServerVersion = [] :=
  ⟨rfl, rfl, rfl, rfl, rfl⟩

/-- C5 (amended): errors abort the decode immediately, but the receiver is
mutated field by field, so on an InvalidFiller error the returned record
still carries every field assigned before the failing step: the header, the
protocol version, the server version, the connection id and the first part
of the auth plugin data, plus the offending filler byte. -/
theorem C5_invalid_filler_partial_record (d : List Nat)
    {rec : InitialHandshakePacket} {pos : Nat}
    (h : Decode d = (Outcome.err DecodeErr.invalidFiller, rec, pos)) :
    ∃ index,
      indexByte (ps d 0 (headerLength d)) 0 = some index ∧
      rec.header = { Length := headerLength d, SequenceId := d.getD 3 0 } ∧
      rec.ProtocolVersion = 10 ∧
      rec.ServerVersion = ps d 1 index ∧
      rec.ConnectionId =
        le32 (pb d (index + 1)) (pb d (index + 2)) (pb d (index + 3)) (pb d (index + 4)) ∧
      rec.AuthPluginData = ps d (index + 5) (index + 13) ∧
      rec.Filler = pb d (index + 13) ∧ pb d (index + 13) ≠ 0 ∧
      pos = index + 13 ∧ index + 13 < headerLength d := by
  unfold Decode DecodeAux at h
  split at h
  · simp at h
  rcases hB : DecodeBody d (headerLength d) with ⟨o, r, p⟩
  rw [hB] at h
  simp only [Prod.mk.injEq] at h
  obtain ⟨ho, hrec, hpos⟩ := h
  subst ho
  subst hpos
  obtain ⟨index, hidx, hpv, hpvr, hsv, hcid, hdata, hfil, hfne, hp, hlt⟩ :=
    DecodeBody_invalidFiller hB
  subst hrec
  exact ⟨index, hidx, rfl, hpvr, hsv, hcid, hdata, hfil, hfne, hp, hlt⟩

/-- C5 witness: the concrete filler-failure packet keeps its parsed prefix. -/
theorem C5_invalid_filler_partial_record_witness :
    ∃ index,
      indexByte (ps inpC5 0 (headerLength inpC5)) 0 = some index ∧
      (Decode inpC5).2.1.header =
        { Length := headerLength inpC5, SequenceId := inpC5.getD 3 0 } ∧
      (Decode inpC5).2.1.ProtocolVersion = 10 ∧
      (Decode inpC5).2.1.ServerVersion = ps inpC5 1 index ∧
      (Decode inpC5).2.1.ConnectionId =
        le32 (pb inpC5 (index + 1)) (pb inpC5 (index + 2)) (pb inpC5 (index + 3))
          (pb inpC5 (index + 4)) ∧
      (Decode inpC5).2.1.AuthPluginData = ps inpC5 (index + 5) (index + 13) ∧
      (Decode inpC5).2.1.Filler = pb inpC5 (index + 13) ∧
      pb inpC5 (index + 13) ≠ 0 ∧
      (Decode inpC5).2.2 = index + 13 ∧ index + 13 < headerLength inpC5 :=
  C5_invalid_filler_partial_record inpC5 rfl

/-- C6: on every successful decode, the capability field of the record is
le16 of the two bytes at payload offset serverVersionEnd+14 bitwise-or the
le16 of the two bytes at offset serverVersionEnd+19 shifted left 16 - the
reconstruction lo ||| (hi <<< 16) of the two non-contiguous 16-bit halves. -/
theorem C6_capability_flags_combination (d : List Nat)
    {rec : InitialHandshakePacket} {pos : Nat}
    (h : Decode d = (Outcome.ok, rec, pos)) :
    ∃ index,
      indexByte (ps d 0 (headerLength d)) 0 = some index ∧
      rec.CapabilitiesFlags =
        (le16 (pb d (index + 14)) (pb d (index + 15)) |||
          (le16 (pb d (index + 19)) (pb d (index + 20))) <<< 16) := by
  obtain ⟨index, q, h1, h2, h3, h4, hidx, h6, h7, h8, h9, h10, h11, h12, h13, h14,
    hcap, h16, h17, h18, h19, h20, h21⟩ := Decode_ok_shape h
  exact ⟨index, hidx, hcap⟩

/-- C6 witness: both capability halves 0xFFFF combine to 0xFFFFFFFF. -/
theorem C6_capability_flags_combination_witness :
    (∃ index,
      indexByte (ps inp6 0 (headerLength inp6)) 0 = some index ∧
      (Decode inp6).2.1.CapabilitiesFlags =
        (le16 (pb inp6 (index + 14)) (pb inp6 (index + 15)) |||
          (le16 (pb inp6 (index + 19)) (pb inp6 (index + 20))) <<< 16)) ∧
      (Decode inp6).2.1.CapabilitiesFlags = 4294967295 :=
  ⟨C6_capability_flags_combination inp6 rfl, rfl⟩

/-- C7: on every successful decode, when the secure-connection bit is set
the auth plugin data is the 8-byte part 1 followed by exactly
max(13, authPluginDataLen - 8) bytes read from the cursor, which advances
by that amount; when the bit is clear the auth plugin data is exactly the
8 bytes of part 1 and the cursor only skips the reserved bytes. -/
theorem C7_auth_plugin_data_part2 (d : List Nat)
    {rec : InitialHandshakePacket} {pos : Nat}
    (h : Decode d = (Outcome.ok, rec, pos)) :
    ∃ index,
      indexByte (ps d 0 (headerLength d)) 0 = some index ∧
      (rec.CapabilitiesFlags &&& clientSecureConn ≠ 0 →
        rec.AuthPluginData =
          ps d (index + 5) (index + 13) ++
            ps d (index + 32)
              (index + 32 + (Max 13 (Int.ofNat rec.AuthPluginDataLen - 8)).toNat) ∧
        rec.AuthPluginData.length =
          8 + (Max 13 (Int.ofNat rec.AuthPluginDataLen - 8)).toNat ∧
        pos = index + 32 + (Max 13 (Int.ofNat rec.AuthPluginDataLen - 8)).toNat) ∧
      (rec.CapabilitiesFlags &&& clientSecureConn = 0 →
        rec.AuthPluginData = ps d (index + 5) (index + 13) ∧
        rec.AuthPluginData.length = 8 ∧ pos = index + 32) := by
  obtain ⟨index, q, h1, h2, h3, h4, hidx, h6, h7, h8, h9, h10, h11, h12, h13, h14,
    hcap, h16, h17, hdisj, hqL, hpos, h21⟩ := Decode_ok_shape h
  subst hpos
  refine ⟨index, hidx, ?_, ?_⟩
  · intro hsec
    rcases hdisj with ⟨hs0, -, -⟩ | ⟨-, hq, hcapq, hdata⟩
    · exact absurd hs0 hsec
    · subst hq
      refine ⟨hdata, ?_, rfl⟩
      rw [hdata, List.length_append, ps_length_eq (by omega) (by omega),
        ps_length_eq (by omega) (by omega)]
      omega
  · intro hsec
    rcases hdisj with ⟨-, hq, hdata⟩ | ⟨hsne, -, -⟩
    · subst hq
      refine ⟨hdata, ?_, rfl⟩
      rw [hdata, ps_length_eq (by omega) (by omega)]
      omega
    · exact absurd hsec hsne

/-- C7 witness: secure-connection set with length field 30 gives a 22-byte
part 2 and a 30-byte auth plugin data. -/
theorem C7_auth_plugin_data_part2_witness :
    (∃ index,
      indexByte (ps inp7 0 (headerLength inp7)) 0 = some index ∧
      ((Decode inp7).2.1.CapabilitiesFlags &&& clientSecureConn ≠ 0 →
        (Decode inp7).2.1.AuthPluginData =
          ps inp7 (index + 5) (index + 13) ++
            ps inp7 (index + 32)
              (index + 32 +
                (Max 13 (Int.ofNat (Decode inp7).2.1.AuthPluginDataLen - 8)).toNat) ∧
        (Decode inp7).2.1.AuthPluginData.length =
          8 + (Max 13 (Int.ofNat (Decode inp7).2.1.AuthPluginDataLen - 8)).toNat ∧
        (Decode inp7).2.2 = index + 32 +
          (Max 13 (Int.ofNat (Decode inp7).2.1.AuthPluginDataLen - 8)).toNat) ∧
      ((Decode inp7).2.1.CapabilitiesFlags &&& clientSecureConn = 0 →
        (Decode inp7).2.1.AuthPluginData = ps inp7 (index + 5) (index + 13) ∧
        (Decode inp7).2.1.AuthPluginData.length = 8 ∧
        (Decode inp7).2.2 = index + 32)) ∧
      (Decode inp7).2.1.AuthPluginData.length = 30 :=
  ⟨C7_auth_plugin_data_part2 inp7 rfl, rfl⟩

/-- C8: on every successful decode, the auth plugin name is the bytes from
the cursor to the first NUL of the remaining payload (terminator excluded)
when one exists, and all remaining payload bytes when none exists - the
decode still succeeding in that case. -/
theorem C8_auth_plugin_name_scan (d : List Nat)
    {rec : InitialHandshakePacket} {pos : Nat}
    (h : Decode d = (Outcome.ok, rec, pos)) :
    (match indexByte (ps d pos (headerLength d)) 0 with
     | some j => rec.AuthPluginName = ps d pos (pos + j)
     | none => rec.AuthPluginName = ps d pos (headerLength d)) := by
  obtain ⟨index, q, h1, h2, h3, h4, hidx, h6, h7, h8, h9, h10, h11, h12, h13, h14,
    hcap, h16, h17, h18, hqL, hpos, hmatch⟩ := Decode_ok_shape h
  subst hpos
  exact hmatch

/-- C8 witness: a payload whose name region has no NUL byte decodes
successfully with the name equal to all remaining payload bytes. -/
theorem C8_auth_plugin_name_scan_witness :
    (match indexByte (ps inp8 (Decode inp8).2.2 (headerLength inp8)) 0 with
     | some j =>
        (Decode inp8).2.1.AuthPluginName = ps inp8 (Decode inp8).2.2 ((Decode inp8).2.2 + j)
     | none =>
        (Decode inp8).2.1.AuthPluginName = ps inp8 (Decode inp8).2.2 (headerLength inp8)) ∧
      indexByte (ps inp8 (Decode inp8).2.2 (headerLength inp8)) 0 = none ∧
      (Decode inp8).1 = Outcome.ok ∧
      (Decode inp8).2.1.AuthPluginName = [120, 121, 122] :=
  ⟨C8_auth_plugin_name_scan inp8 rfl, rfl, rfl, rfl⟩

/-- C9: on every successful decode with the plugin-auth bit clear, the
length field was never read and stays 0; if the secure-connection bit is
set, part 2 is computed from that zero as max(13, 0 - 8) = 13 bytes, so the
auth plugin data is 8 + 13 bytes long. -/
theorem C9_plugin_auth_unset_len_zero (d : List Nat)
    {rec : InitialHandshakePacket} {pos : Nat}
    (h : Decode d = (Outcome.ok, rec, pos))
    (hpa : rec.CapabilitiesFlags &&& clientPluginAuth = 0) :
    rec.AuthPluginDataLen = 0 ∧
      (rec.CapabilitiesFlags &&& clientSecureConn ≠ 0 →
        rec.AuthPluginData.length = 8 + 13) := by
  obtain ⟨index, q, h1, h2, h3, h4, hidx, h6, h7, h8, h9, h10, h11, h12, h13, h14,
    hcap, hlen, hlnz, hdisj, hqL, hpos, h21⟩ := Decode_ok_shape h
  have h0 : rec.AuthPluginDataLen = 0 := by
    rw [hlen, if_neg]
    intro hc
    exact hc hpa
  refine ⟨h0, ?_⟩
  intro hsec
  rcases hdisj with ⟨hs0, -, -⟩ | ⟨-, hq, hcapq, hdata⟩
  · exact absurd hs0 hsec
  · rw [h0] at hq
    have h13 : (Max 13 (Int.ofNat 0 - 8)).toNat = 13 := by decide
    rw [h13] at hq
    rw [hdata, List.length_append, ps_length_eq (by omega) (by omega),
      ps_length_eq (by omega) (by omega)]
    omega

/-- C9 witness: secure-connection set, plugin-auth clear, 21-byte auth
plugin data. -/
theorem C9_plugin_auth_unset_len_zero_witness :
    ((Decode inp9).2.1.AuthPluginDataLen = 0 ∧
      ((Decode inp9).2.1.CapabilitiesFlags &&& clientSecureConn ≠ 0 →
        (Decode inp9).2.1.AuthPluginData.length = 8 + 13)) ∧
      (Decode inp9).2.1.CapabilitiesFlags &&& clientPluginAuth = 0 ∧
      (Decode inp9).2.1.CapabilitiesFlags &&& clientSecureConn ≠ 0 ∧
      (Decode inp9).2.1.AuthPluginData.length = 21 :=
  ⟨C9_plugin_auth_unset_len_zero inp9 rfl rfl, rfl, by decide, rfl⟩

/-- C10: two 1024-byte read buffers that agree everywhere except at byte 3
(the sequence id) and whose payload starts with protocol version 10 decode
to the same outcome, the same final cursor, and records identical in every
field; only the stored header.SequenceId may differ.  The sequence id is
never validated and never influences parsing. -/
theorem C10_sequence_id_no_influence (d1 d2 : List Nat)
    (h1 : d1.length = 1024) (h2 : d2.length = 1024)
    (hpre : d1.take 3 = d2.take 3) (hsuf : d1.drop 4 = d2.drop 4)
    (hpv : pb d1 0 = 10) :
    eraseSeq (Decode d1) = eraseSeq (Decode d2) := by
  have hByte : ∀ i, i < 3 → d1.getD i 0 = d2.getD i 0 := by
    intro i hi
    have e1 : (d1.take 3).getD i 0 = d1.getD i 0 := by
      rw [List.getD_eq_getElem?_getD, List.getD_eq_getElem?_getD,
        List.getElem?_take_of_lt hi]
    have e2 : (d2.take 3).getD i 0 = d2.getD i 0 := by
      rw [List.getD_eq_getElem?_getD, List.getD_eq_getElem?_getD,
        List.getElem?_take_of_lt hi]
    rw [← e1, ← e2, hpre]
  have hL : headerLength d1 = headerLength d2 := by
    unfold headerLength
    rw [hByte 0 (by omega), hByte 1 (by omega), hByte 2 (by omega)]
  have hpb : ∀ i, pb d1 i = pb d2 i := by
    intro i
    unfold pb
    rw [List.getD_eq_getElem?_getD, List.getD_eq_getElem?_getD,
      ← List.getElem?_drop d1 4 i, ← List.getElem?_drop d2 4 i, hsuf]
  have hps : ∀ a b, ps d1 a b = ps d2 a b := by
    intro a b
    unfold ps
    rw [← List.drop_drop a 4 d1, hsuf, List.drop_drop]
  have hlen12 : d1.length = d2.length := by rw [h1, h2]
  have hpv2 : pb d2 0 = 10 := (hpb 0).symm.trans hpv
  have hFields := decodeFields_congr hlen12 hpb hps
  have hBody : DecodeBody d1 (headerLength d2) = DecodeBody d2 (headerLength d2) := by
    unfold DecodeBody
    simp only [hlen12, hpb, hps, hFields, hpv2]
    norm_num
  unfold Decode DecodeAux
  rw [hL, hBody]
  by_cases hs : 1024 ≤ headerLength d2
  · rw [if_pos hs, if_pos hs]
  · rw [if_neg hs, if_neg hs]
    unfold eraseSeq
    simp only []

/-- C10 witness: two concrete buffers differing only in the sequence id
byte decode identically up to the stored sequence id. -/
theorem C10_sequence_id_no_influence_witness :
    eraseSeq (Decode inp10a) = eraseSeq (Decode inp10b) ∧
      inp10a.getD 3 0 = 0 ∧ inp10b.getD 3 0 = 7 :=
  ⟨C10_sequence_id_no_influence inp10a inp10b rfl rfl rfl rfl rfl, rfl, rfl⟩

end MySqlDecode
